import Mathlib

/-!
Verification of the proxy-fallback core of the youtube-downloader repository
(source document: the proxy configuration module with PROXY_PROVIDERS,
getActiveProviders, generateSessionId, getProxyWithFallback, getFreeProxy and
downloadWithRetry).

The JavaScript module is shallowly embedded as follows.

Process environment: a record of optional strings, one field per environment
variable the module reads. JavaScript truthiness of a string-or-undefined value
(false exactly for undefined and for the empty string) is the function truthy.
The logical-or operator on such values is jsOr, and interpolation of a
possibly-undefined value into a template string is jsStr (undefined renders as
the text undefined, exactly as in JavaScript).

The provider table PROXY_PROVIDERS is a top-level module constant in the
source, so its enabled fields are computed once, from the environment current
at module load; the table is modelled as a function of that load-time
environment.  Object.entries order is insertion order, modelled by the list
order.  The stable JavaScript Array.prototype.sort with the comparator
comparing priority fields is modelled by the stable insertion sort sortLe.

The retry orchestrator downloadWithRetry is modelled as a fuel-based recursion
that also produces a trace of observable events: provider selections, fetch
invocations (with the route passed and the outcome), and backoff waits.  The
injected fetch operation is modelled as a function from the invocation index
(number of earlier invocations, capturing that an effectful callee may answer
differently each time) and the route argument to an Except result; a thrown
error is the error case.  The returned value is an Option: none models the
JavaScript function falling off the loop and returning undefined.
-/

/-- Process environment variables read by the module (lines 8 to 57 of the
source).  A field is none when the variable is unset. -/
structure Env where
  PROXY_USERNAME : Option String := none
  PROXY_PASSWORD : Option String := none
  PROXY_HOST : Option String := none
  PROXY_PORT : Option String := none
  BRIGHTDATA_USERNAME : Option String := none
  BRIGHTDATA_PASSWORD : Option String := none
  BRIGHTDATA_HOST : Option String := none
  BRIGHTDATA_PORT : Option String := none
  SMARTPROXY_USERNAME : Option String := none
  SMARTPROXY_PASSWORD : Option String := none
  OXYLABS_USERNAME : Option String := none
  OXYLABS_PASSWORD : Option String := none
deriving DecidableEq

/-- JavaScript truthiness of a string-valued environment variable: undefined
and the empty string are falsy, every other string is truthy. -/
def truthy : Option String → Bool
  | none => false
  | some s => !(s == "")

/-- JavaScript logical-or on possibly-undefined strings: the left operand if
truthy, otherwise the right operand. -/
def jsOr (a b : Option String) : Option String :=
  if truthy a then a else b

/-- JavaScript template-string interpolation of a possibly-undefined value:
undefined is rendered as the literal text undefined. -/
def jsStr : Option String → String
  | none => "undefined"
  | some s => s

/-- Whether the pattern occurs as a contiguous character run starting at the
head of the second list. -/
def seqStartsWith : List Char → List Char → Bool
  | [], _ => true
  | _ :: _, [] => false
  | p :: ps, c :: cs => p == c && seqStartsWith ps cs

/-- Whether the pattern occurs as a contiguous character run anywhere in the
second list. -/
def seqOccurs (pat : List Char) : List Char → Bool
  | [] => pat.isEmpty
  | c :: rest => seqStartsWith pat (c :: rest) || seqOccurs pat rest

/-- JavaScript String.prototype.includes, used by the brightdata route builder
(line 26 and line 30 of the source). -/
def strOccurs (pat s : String) : Bool :=
  seqOccurs pat.toList s.toList

/-- Static data of one provider entry of PROXY_PROVIDERS: the enabled flag,
the type tag and the priority rank (the buildUrl closure is modelled by the
dispatcher buildUrl below, keyed by the unique provider name). -/
structure ProviderCfg where
  enabled : Bool
  routeType : String
  priority : Nat
deriving DecidableEq

/-- The provider table of lines 6 to 70, in registration (insertion) order:
brightdata, smartproxy, oxylabs, freeProxy.  The enabled flags are computed
from the argument environment; in the source this happens once, when the
module-level constant is initialised. -/
def PROXY_PROVIDERS (env : Env) : List (String × ProviderCfg) :=
  [ ("brightdata",
      { enabled := truthy env.PROXY_USERNAME || truthy env.BRIGHTDATA_USERNAME,
        routeType := "residential", priority := 1 }),
    ("smartproxy",
      { enabled := truthy env.SMARTPROXY_USERNAME,
        routeType := "residential", priority := 2 }),
    ("oxylabs",
      { enabled := truthy env.OXYLABS_USERNAME,
        routeType := "residential", priority := 3 }),
    ("freeProxy",
      { enabled := true,
        routeType := "datacenter", priority := 99 }) ]

/-- Insert an element into a list so that it lands before the first element
it compares less-or-equal to.  Together with sortLe this is a stable sort. -/
def insertLe (le : α → α → Bool) (x : α) : List α → List α
  | [] => [x]
  | y :: ys => if le x y then x :: y :: ys else y :: insertLe le x ys

/-- Stable insertion sort, modelling the stable JavaScript
Array.prototype.sort. -/
def sortLe (le : α → α → Bool) : List α → List α
  | [] => []
  | x :: xs => insertLe le x (sortLe le xs)

/-- The comparator of line 80 of the source: ascending priority. -/
def leProv (p q : String × ProviderCfg) : Bool :=
  p.2.priority ≤ q.2.priority

/-- Lines 73 to 84: the enabled providers, sorted ascending by priority
(stable, so ties keep registration order). -/
def getActiveProviders (env : Env) : List (String × ProviderCfg) :=
  sortLe leProv ((PROXY_PROVIDERS env).filter (fun p => p.2.enabled))

/-- Character for a base-36 digit, as produced by JavaScript
Number.prototype.toString with radix 36: digits then lowercase letters. -/
def digitChar36 (d : Nat) : Char :=
  if d < 10 then Char.ofNat (48 + d) else Char.ofNat (87 + d)

/-- Base-36 fractional expansion of the rational n / d (with n below d),
most significant digit first, stopping at an exact zero remainder or when the
fuel runs out. -/
def frac36 : Nat → Nat → Nat → List Nat
  | 0, _, _ => []
  | fuel + 1, n, d =>
    if n = 0 then []
    else (n * 36) / d :: frac36 fuel ((n * 36) % d) d

/-- Character list of the JavaScript expression obtained by calling toString
with radix 36 on the double n divided by two to the 53rd power (the value
produced by Math.random, whose outcomes are the dyadic rationals with that
denominator in the half-open unit interval).  Zero prints as the single digit
zero; any other value prints as zero, a dot, then the base-36 fraction digits.
ECMAScript leaves radix-36 formatting implementation-approximated; the exact
expansion modelled here is what engines print on exactly-representable short
fractions, and on other inputs engines print a truncation of it. -/
def jsRandomChars (n : Nat) : List Char :=
  if n = 0 then [Char.ofNat 48]
  else Char.ofNat 48 :: Char.ofNat 46 :: (frac36 54 n (2 ^ 53)).map digitChar36

/-- Lines 86 to 89 of the source: generateSessionId returns
Math.random().toString(36).substring(7).  The substring call drops the first
seven UTF-16 units (the leading zero, the dot, and the first five fraction
digits); dropping past the end yields the empty string, as in JavaScript. -/
def generateSessionId (n : Nat) : String :=
  String.mk ((jsRandomChars n).drop 7)

/-- Lines 9 to 37: the brightdata buildUrl closure.  Reads the PROXY or
BRIGHTDATA variables through jsOr, returns null when any of the four is
falsy, appends a session suffix unless the username mentions the
scraping-browser zone or the session id is falsy. -/
def buildBrightdataUrl (env : Env) (sessionId : String) : Option String :=
  let baseUsername := jsOr env.PROXY_USERNAME env.BRIGHTDATA_USERNAME
  let password := jsOr env.PROXY_PASSWORD env.BRIGHTDATA_PASSWORD
  let host := jsOr env.PROXY_HOST env.BRIGHTDATA_HOST
  let port := jsOr env.PROXY_PORT env.BRIGHTDATA_PORT
  if truthy baseUsername && truthy password && truthy host && truthy port then
    let base := jsStr baseUsername
    let username :=
      if strOccurs ("scraping_browser") base then base
      else if sessionId == "" then base
      else base ++ "-session-" ++ sessionId
    some ("http://" ++ username ++ ":" ++ jsStr password ++ "@" ++ jsStr host
      ++ ":" ++ jsStr port)
  else
    none

/-- Lines 44 to 49: the smartproxy buildUrl closure.  No presence check: a
missing username or password is interpolated as the text undefined. -/
def buildSmartproxyUrl (env : Env) (sessionId : String) : Option String :=
  let username : Option String :=
    if sessionId == "" then env.SMARTPROXY_USERNAME
    else some (jsStr env.SMARTPROXY_USERNAME ++ "-session-" ++ sessionId)
  some ("http://" ++ jsStr username ++ ":" ++ jsStr env.SMARTPROXY_PASSWORD
    ++ "@gate.smartproxy.com:7000")

/-- Lines 56 to 58: the oxylabs buildUrl closure, ignoring the session id. -/
def buildOxylabsUrl (env : Env) : Option String :=
  some ("http://" ++ jsStr env.OXYLABS_USERNAME ++ ":"
    ++ jsStr env.OXYLABS_PASSWORD ++ "@pr.oxylabs.io:7777")

/-- Dispatch of the per-provider buildUrl closures by the unique provider
name.  The freeProxy closure (line 66) returns null. -/
def buildUrl (env : Env) (name : String) (sessionId : String) : Option String :=
  match name with
  | "brightdata" => buildBrightdataUrl env sessionId
  | "smartproxy" => buildSmartproxyUrl env sessionId
  | "oxylabs" => buildOxylabsUrl env
  | _ => none

/-- The object returned by getProxyWithFallback on success
(lines 120 to 125). -/
structure ProxyConfig where
  url : String
  provider : String
  sessionId : String
  attempt : Nat
deriving DecidableEq

/-- The provider name selected at the given attempt: the entry at index
attempt modulo the length of the enabled list (line 101), or none when the
enabled list is empty. -/
def selectedName (env : Env) (attempt : Nat) : Option String :=
  ((getActiveProviders env)[attempt % (getActiveProviders env).length]?).map
    Prod.fst

/-- Lines 92 to 126: getProxyWithFallback.  Returns none when no provider is
enabled, when the selected provider is freeProxy (getFreeProxy, lines 129 to
140, always returns null), or when the selected provider's buildUrl returns
null; otherwise returns the route descriptor.  The session id argument stands
for the generateSessionId call of line 112. -/
def getProxyWithFallback (env : Env) (sid : String) (attempt : Nat) :
    Option ProxyConfig :=
  let providers := getActiveProviders env
  if providers.isEmpty then
    none
  else
    match providers[attempt % providers.length]? with
    | none => none
    | some (name, _) =>
      if name == "freeProxy" then
        none
      else
        match buildUrl env name sid with
        | none => none
        | some u =>
          some { url := u, provider := name, sessionId := sid,
                 attempt := attempt }

/-- The route argument downloadWithRetry passes to the fetch operation at the
given attempt: the url of the route descriptor, or none for a direct
connection (lines 162 to 169). -/
def routeFor (env : Env) (sid : Nat → String) (a : Nat) : Option String :=
  (getProxyWithFallback env (sid a) a).map ProxyConfig.url

/-- Observable events of one orchestrated call: a provider selection at an
attempt (the log of line 104), a fetch invocation carrying its attempt tag
(none for the final direct fallback of line 181), the route passed and whether
it succeeded, and a backoff wait after a failed attempt carrying the delay in
milliseconds (line 190). -/
inductive Ev where
  | sel : String → Nat → Ev
  | call : Option Nat → Option String → Bool → Ev
  | wait : Nat → Nat → Ev
deriving DecidableEq

/-- Selection events emitted at one attempt: one event naming the selected
provider, or nothing when the enabled list is empty (the early return of
lines 95 to 98 logs no selection). -/
def selEvts (env : Env) (a : Nat) : List Ev :=
  match selectedName env a with
  | some n => [Ev.sel n a]
  | none => []

/-- Lines 177 to 185 of the source: after the last attempt fails, exactly one
additional direct (no-route) invocation of the fetch operation is made, with
no backoff before it; its success is returned, and its failure is wrapped
into the aggregated error of line 183. -/
def fallbackStep (env : Env) (sid : Nat → String)
    (f : Nat → Option String → Except String String) (a c : Nat) :
    Option (Except String String) × List Ev :=
  match f (c + 1) none with
  | Except.ok r2 =>
    (some (Except.ok r2),
      selEvts env a ++ [Ev.call (some a) (routeFor env sid a) false,
        Ev.call none none true])
  | Except.error d =>
    (some (Except.error ("All download attempts failed: " ++ d)),
      selEvts env a ++ [Ev.call (some a) (routeFor env sid a) false,
        Ev.call none none false])

/-- Lines 157 to 193: the retry loop of downloadWithRetry, with the remaining
iteration count as fuel (the attempt index a and the fuel always sum to the
iteration bound), the invocation counter c indexing calls of the injected
fetch operation f.  Each iteration fetches once, through the route built for
this attempt or directly when that route is none; a success returns
immediately; a failure on the last attempt (zero fuel remaining) takes the
fallbackStep above; a failure on any other attempt waits the
exponential-backoff delay of line 188 and recurses. -/
def loopRun (env : Env) (sid : Nat → String)
    (f : Nat → Option String → Except String String) :
    Nat → Nat → Nat → Option (Except String String) × List Ev
  | 0, _, _ => (none, [])
  | fuel + 1, a, c =>
    match f c (routeFor env sid a) with
    | Except.ok r =>
      (some (Except.ok r),
        selEvts env a ++ [Ev.call (some a) (routeFor env sid a) true])
    | Except.error _ =>
      if fuel = 0 then
        fallbackStep env sid f a c
      else
        ((loopRun env sid f fuel (a + 1) (c + 1)).1,
          selEvts env a ++ [Ev.call (some a) (routeFor env sid a) false,
            Ev.wait a (min (1000 * 2 ^ a) 10000)]
            ++ (loopRun env sid f fuel (a + 1) (c + 1)).2)

/-- Lines 157 to 193: downloadWithRetry.  The JavaScript parameter
maxAttempts is a number that may be non-positive, in which case the loop body
never runs and the function returns undefined (modelled by none).  The first
component is the returned or thrown result, the second the event trace. -/
def downloadWithRetry (env : Env) (sid : Nat → String)
    (f : Nat → Option String → Except String String) (maxAttempts : Int) :
    Option (Except String String) × List Ev :=
  loopRun env sid f maxAttempts.toNat 0 0

/-- Projection of a trace to its fetch invocations, in order: attempt tag,
route argument, success flag. -/
def callRec : Ev → Option (Option Nat × Option String × Bool)
  | Ev.call t r b => some (t, r, b)
  | _ => none

/-- The fetch invocations of a trace, in order. -/
def callsOf (tr : List Ev) : List (Option Nat × Option String × Bool) :=
  tr.filterMap callRec

/-- The empty environment: no proxy variable configured. -/
def envEmpty : Env := {}

/-- Environment with only the brightdata username configured (password, host
and port missing). -/
def envBD : Env := { PROXY_USERNAME := some ("user") }

/-- Environment with only the smartproxy username configured. -/
def envSmart : Env := { SMARTPROXY_USERNAME := some ("user") }

/-- A fixed session-id source for concrete runs. -/
def sid0 : Nat → String := fun _ => "sess"

/-- A fetch operation failing on every invocation. -/
def fFail : Nat → Option String → Except String String :=
  fun _ _ => Except.error ("boom")

/-- A fetch operation succeeding on every invocation. -/
def fOk : Nat → Option String → Except String String :=
  fun _ _ => Except.ok ("payload")

/-- The registry as seen by a call made while the current configuration is
callEnv, in a process whose module was loaded under loadEnv.  PROXY_PROVIDERS
is a top-level constant of the source module, so every enabled flag was
computed at load time; the configuration current at the call is not
consulted. -/
def getActiveProvidersAt (loadEnv : Env) (_callEnv : Env) :
    List (String × ProviderCfg) :=
  getActiveProviders loadEnv

/-- Modelled from the spec: a listEnabled operation that recomputes each
provider's enabled flag from the configuration current at the call. -/
def listEnabledRecomputed (callEnv : Env) : List (String × ProviderCfg) :=
  getActiveProviders callEnv

/-- The enabled flag recorded in the registry for a provider name. -/
def enabledOf (env : Env) (name : String) : Option Bool :=
  ((PROXY_PROVIDERS env).find? (fun p => p.1 == name)).map
    (fun p => p.2.enabled)

/-- Modelled from the spec: all credential parameters the provider's route
builder needs are present (brightdata reads username, password, host and port
through the PROXY-or-BRIGHTDATA fallback; smartproxy and oxylabs read their
username and password; freeProxy needs nothing). -/
def allParamsPresent (env : Env) : String → Bool
  | "brightdata" =>
    truthy (jsOr env.PROXY_USERNAME env.BRIGHTDATA_USERNAME)
      && truthy (jsOr env.PROXY_PASSWORD env.BRIGHTDATA_PASSWORD)
      && truthy (jsOr env.PROXY_HOST env.BRIGHTDATA_HOST)
      && truthy (jsOr env.PROXY_PORT env.BRIGHTDATA_PORT)
  | "smartproxy" =>
    truthy env.SMARTPROXY_USERNAME && truthy env.SMARTPROXY_PASSWORD
  | "oxylabs" =>
    truthy env.OXYLABS_USERNAME && truthy env.OXYLABS_PASSWORD
  | "freeProxy" => true
  | _ => false

/-- The condition the source actually uses for the enabled flag of each
provider: presence of a truthy username variable only. -/
def usernameConfigured (env : Env) : String → Bool
  | "brightdata" =>
    truthy env.PROXY_USERNAME || truthy env.BRIGHTDATA_USERNAME
  | "smartproxy" => truthy env.SMARTPROXY_USERNAME
  | "oxylabs" => truthy env.OXYLABS_USERNAME
  | "freeProxy" => true
  | _ => false

/-- Alphanumeric check for session-token characters: a decimal digit or a
lowercase letter. -/
def isBase36Char (ch : Char) : Bool :=
  decide (Char.ofNat 48 ≤ ch ∧ ch ≤ Char.ofNat 57)
    || decide (Char.ofNat 97 ≤ ch ∧ ch ≤ Char.ofNat 122)

/-- The registry entry of the freeProxy provider (lines 64 to 69). -/
def freeProxyCfg : ProviderCfg :=
  { enabled := true, routeType := "datacenter", priority := 99 }

example : getActiveProviders envEmpty = [(("freeProxy"), freeProxyCfg)] := by
  decide

example : selectedName envBD 0 = some ("brightdata") := by decide

example : getProxyWithFallback envBD (sid0 0) 0 = none := by decide

example : (downloadWithRetry envEmpty sid0 fFail 2).1 =
    some (Except.error ("All download attempts failed: boom")) := rfl

example : generateSessionId (2 ^ 52) = "" := by decide

/-! Lemmas about the stable insertion sort. -/

theorem mem_insertLe (le : α → α → Bool) (x z : α) :
    ∀ l : List α, z ∈ insertLe le x l ↔ z = x ∨ z ∈ l := by
  intro l
  induction l with
  | nil => simp [insertLe]
  | cons y ys ih =>
    cases hxy : le x y with
    | true => simp [insertLe, hxy]
    | false =>
      simp [insertLe, hxy, ih]
      tauto

theorem mem_sortLe (le : α → α → Bool) (z : α) :
    ∀ l : List α, z ∈ sortLe le l ↔ z ∈ l := by
  intro l
  induction l with
  | nil => simp [sortLe]
  | cons y ys ih => simp [sortLe, mem_insertLe, ih]

theorem pairwise_insertLe (le : α → α → Bool)
    (total : ∀ a b, le a b = true ∨ le b a = true)
    (htr : ∀ a b c, le a b = true → le b c = true → le a c = true)
    (x : α) (l : List α)
    (hl : l.Pairwise (fun a b => le a b = true)) :
    (insertLe le x l).Pairwise (fun a b => le a b = true) := by
  induction l with
  | nil => simp [insertLe]
  | cons y ys ih =>
    rw [List.pairwise_cons] at hl
    obtain ⟨hy, hys⟩ := hl
    cases hxy : le x y with
    | true =>
      simp only [insertLe, hxy, if_true]
      rw [List.pairwise_cons]
      refine ⟨?_, List.pairwise_cons.mpr ⟨hy, hys⟩⟩
      intro b hb
      rcases List.mem_cons.mp hb with rfl | hb2
      · exact hxy
      · exact htr x y b hxy (hy b hb2)
    | false =>
      simp only [insertLe, hxy, Bool.false_eq_true, if_false]
      rw [List.pairwise_cons]
      refine ⟨?_, ih hys⟩
      intro b hb
      rcases (mem_insertLe le x b ys).mp hb with heq | hb2
      · rw [heq]
        rcases total x y with h1 | h2
        · rw [hxy] at h1
          exact absurd h1 (by simp)
        · exact h2
      · exact hy b hb2

theorem pairwise_sortLe (le : α → α → Bool)
    (total : ∀ a b, le a b = true ∨ le b a = true)
    (htr : ∀ a b c, le a b = true → le b c = true → le a c = true)
    (l : List α) :
    (sortLe le l).Pairwise (fun a b => le a b = true) := by
  induction l with
  | nil => simp [sortLe]
  | cons x xs ih => exact pairwise_insertLe le total htr x _ ih

theorem leProv_total : ∀ p q, leProv p q = true ∨ leProv q p = true := by
  intro p q
  simp [leProv]
  omega

theorem leProv_trans :
    ∀ p q r, leProv p q = true → leProv q r = true → leProv p r = true := by
  intro p q r
  simp [leProv]
  omega

/-! Lemmas about the registry. -/

theorem active_sorted (env : Env) :
    (getActiveProviders env).Pairwise
      (fun p q => p.2.priority ≤ q.2.priority) := by
  have h := pairwise_sortLe leProv leProv_total leProv_trans
    ((PROXY_PROVIDERS env).filter (fun p => p.2.enabled))
  unfold getActiveProviders
  exact h.imp (by intro a b hab; simpa [leProv] using hab)

theorem freeProxy_mem_active (env : Env) :
    (("freeProxy"), freeProxyCfg) ∈ getActiveProviders env := by
  unfold getActiveProviders
  rw [mem_sortLe]
  apply List.mem_filter.mpr
  refine ⟨?_, rfl⟩
  simp [PROXY_PROVIDERS, freeProxyCfg]

theorem active_ne_nil (env : Env) : getActiveProviders env ≠ [] :=
  List.ne_nil_of_mem (freeProxy_mem_active env)

/-! Lemmas about selection events and the projection to fetch invocations. -/

theorem selEvts_no_call {env : Env} {a : Nat} {t : Option Nat}
    {r : Option String} {b : Bool} : Ev.call t r b ∉ selEvts env a := by
  unfold selEvts
  cases selectedName env a <;> simp

theorem selEvts_no_wait {env : Env} {a i w : Nat} :
    Ev.wait i w ∉ selEvts env a := by
  unfold selEvts
  cases selectedName env a <;> simp

theorem selEvts_sel {env : Env} {a i : Nat} {n : String}
    (h : Ev.sel n i ∈ selEvts env a) :
    selectedName env a = some n ∧ i = a := by
  unfold selEvts at h
  cases hs : selectedName env a with
  | none => rw [hs] at h; simp at h
  | some m =>
    rw [hs] at h
    simp at h
    obtain ⟨rfl, rfl⟩ := h
    exact ⟨rfl, rfl⟩

@[simp] theorem callsOf_nil : callsOf [] = [] := rfl

@[simp] theorem callsOf_cons_sel {n : String} {a : Nat} {l : List Ev} :
    callsOf (Ev.sel n a :: l) = callsOf l := by
  simp [callsOf, List.filterMap_cons, callRec]

@[simp] theorem callsOf_cons_wait {i w : Nat} {l : List Ev} :
    callsOf (Ev.wait i w :: l) = callsOf l := by
  simp [callsOf, List.filterMap_cons, callRec]

@[simp] theorem callsOf_cons_call {t : Option Nat} {r : Option String}
    {b : Bool} {l : List Ev} :
    callsOf (Ev.call t r b :: l) = (t, r, b) :: callsOf l := by
  simp [callsOf, List.filterMap_cons, callRec]

@[simp] theorem callsOf_append {l1 l2 : List Ev} :
    callsOf (l1 ++ l2) = callsOf l1 ++ callsOf l2 := by
  simp [callsOf]

@[simp] theorem callsOf_selEvts {env : Env} {a : Nat} :
    callsOf (selEvts env a) = [] := by
  unfold selEvts
  cases selectedName env a <;> simp

/-! Equation lemmas for the retry loop, one per control-flow branch. -/

theorem loopRun_zero {env : Env} {sid : Nat → String}
    {f : Nat → Option String → Except String String} {a c : Nat} :
    loopRun env sid f 0 a c = (none, []) := rfl

theorem fallbackStep_ok {env : Env} {sid : Nat → String}
    {f : Nat → Option String → Except String String} {a c : Nat}
    {r2 : String} (h2 : f (c + 1) none = Except.ok r2) :
    fallbackStep env sid f a c =
      (some (Except.ok r2),
        selEvts env a ++ [Ev.call (some a) (routeFor env sid a) false,
          Ev.call none none true]) := by
  unfold fallbackStep
  rw [h2]

theorem fallbackStep_err {env : Env} {sid : Nat → String}
    {f : Nat → Option String → Except String String} {a c : Nat}
    {d : String} (h2 : f (c + 1) none = Except.error d) :
    fallbackStep env sid f a c =
      (some (Except.error ("All download attempts failed: " ++ d)),
        selEvts env a ++ [Ev.call (some a) (routeFor env sid a) false,
          Ev.call none none false]) := by
  unfold fallbackStep
  rw [h2]

theorem loopRun_ok {env : Env} {sid : Nat → String}
    {f : Nat → Option String → Except String String} {fuel a c : Nat}
    {r : String} (h : f c (routeFor env sid a) = Except.ok r) :
    loopRun env sid f (fuel + 1) a c =
      (some (Except.ok r),
        selEvts env a ++ [Ev.call (some a) (routeFor env sid a) true]) := by
  unfold loopRun
  rw [h]

theorem loopRun_err_one {env : Env} {sid : Nat → String}
    {f : Nat → Option String → Except String String} {a c : Nat}
    {e : String} (h1 : f c (routeFor env sid a) = Except.error e) :
    loopRun env sid f 1 a c = fallbackStep env sid f a c := by
  unfold loopRun
  rw [h1]
  rfl

theorem loopRun_err_cont {env : Env} {sid : Nat → String}
    {f : Nat → Option String → Except String String} {k a c : Nat}
    {e : String} (h1 : f c (routeFor env sid a) = Except.error e) :
    loopRun env sid f (k + 2) a c =
      ((loopRun env sid f (k + 1) (a + 1) (c + 1)).1,
        selEvts env a ++ [Ev.call (some a) (routeFor env sid a) false,
          Ev.wait a (min (1000 * 2 ^ a) 10000)]
          ++ (loopRun env sid f (k + 1) (a + 1) (c + 1)).2) := by
  unfold loopRun
  rw [h1]
  rfl

theorem selEvts_shape {env : Env} {a : Nat} {e : Ev} (h : e ∈ selEvts env a) :
    ∃ n, e = Ev.sel n a ∧ selectedName env a = some n := by
  unfold selEvts at h
  cases hs : selectedName env a with
  | none => rw [hs] at h; simp at h
  | some m =>
    rw [hs] at h
    simp at h
    exact ⟨m, h, rfl⟩

/-- Every event of a run is one of: a selection event recording the provider
selectedName picks for its attempt; an in-loop fetch invocation tagged with
its attempt and carrying exactly the route getProxyWithFallback builds for
that attempt; the final direct fallback invocation, made with no route; or a
backoff wait carrying the delay of line 188 for its attempt. -/
theorem run_mem_cases {env : Env} {sid : Nat → String}
    {f : Nat → Option String → Except String String} :
    ∀ {K a c : Nat} {e : Ev}, e ∈ (loopRun env sid f K a c).2 →
      (∃ n j, e = Ev.sel n j ∧ selectedName env j = some n) ∨
      (∃ j r b, e = Ev.call (some j) r b ∧ r = routeFor env sid j) ∨
      (∃ b, e = Ev.call none none b) ∨
      (∃ j, e = Ev.wait j (min (1000 * 2 ^ j) 10000)) := by
  intro K
  induction K with
  | zero =>
    intro a c e h
    rw [loopRun_zero] at h
    simp at h
  | succ K ih =>
    intro a c e h
    rcases hf : f c (routeFor env sid a) with d | r
    · cases K with
      | zero =>
        rw [loopRun_err_one hf] at h
        rcases hfb : f (c + 1) none with d2 | r2
        · rw [fallbackStep_err hfb] at h
          simp only [List.mem_append, List.mem_cons, List.mem_singleton,
            List.not_mem_nil, or_false] at h
          rcases h with h | h | h
          · obtain ⟨n, rfl, hsel⟩ := selEvts_shape h
            exact Or.inl ⟨n, a, rfl, hsel⟩
          · exact Or.inr (Or.inl ⟨a, _, _, h, rfl⟩)
          · exact Or.inr (Or.inr (Or.inl ⟨false, h⟩))
        · rw [fallbackStep_ok hfb] at h
          simp only [List.mem_append, List.mem_cons, List.mem_singleton,
            List.not_mem_nil, or_false] at h
          rcases h with h | h | h
          · obtain ⟨n, rfl, hsel⟩ := selEvts_shape h
            exact Or.inl ⟨n, a, rfl, hsel⟩
          · exact Or.inr (Or.inl ⟨a, _, _, h, rfl⟩)
          · exact Or.inr (Or.inr (Or.inl ⟨true, h⟩))
      | succ K2 =>
        rw [loopRun_err_cont hf] at h
        simp only [List.mem_append, List.mem_cons, List.mem_singleton,
          List.not_mem_nil, or_false] at h
        rcases h with (h | h | h) | h
        · obtain ⟨n, rfl, hsel⟩ := selEvts_shape h
          exact Or.inl ⟨n, a, rfl, hsel⟩
        · exact Or.inr (Or.inl ⟨a, _, _, h, rfl⟩)
        · exact Or.inr (Or.inr (Or.inr ⟨a, h⟩))
        · exact ih h
    · rw [loopRun_ok hf] at h
      simp only [List.mem_append, List.mem_cons, List.mem_singleton,
        List.not_mem_nil, or_false] at h
      rcases h with h | h
      · obtain ⟨n, rfl, hsel⟩ := selEvts_shape h
        exact Or.inl ⟨n, a, rfl, hsel⟩
      · exact Or.inr (Or.inl ⟨a, _, _, h, rfl⟩)

/-- After any failed in-loop invocation that is not at the last attempt, the
run contains the backoff wait for that attempt, with the delay of line 188. -/
theorem run_wait_of_fail {env : Env} {sid : Nat → String}
    {f : Nat → Option String → Except String String} :
    ∀ {K a c i : Nat} {r : Option String},
      Ev.call (some i) r false ∈ (loopRun env sid f K a c).2 →
      i + 1 < a + K →
      Ev.wait i (min (1000 * 2 ^ i) 10000) ∈ (loopRun env sid f K a c).2 := by
  intro K
  induction K with
  | zero =>
    intro a c i r h hlt
    rw [loopRun_zero] at h
    simp at h
  | succ K ih =>
    intro a c i r h hlt
    rcases hf : f c (routeFor env sid a) with d | rr
    · cases K with
      | zero =>
        rw [loopRun_err_one hf] at h
        rcases hfb : f (c + 1) none with d2 | r2
        · rw [fallbackStep_err hfb] at h
          simp only [List.mem_append, List.mem_cons, List.mem_singleton,
            List.not_mem_nil, or_false] at h
          rcases h with h | h | h
          · exact absurd h selEvts_no_call
          · obtain ⟨heq, -, -⟩ := Ev.call.inj h
            obtain rfl := Option.some.inj heq
            omega
          · obtain ⟨heq, -, -⟩ := Ev.call.inj h
            simp at heq
        · rw [fallbackStep_ok hfb] at h
          simp only [List.mem_append, List.mem_cons, List.mem_singleton,
            List.not_mem_nil, or_false] at h
          rcases h with h | h | h
          · exact absurd h selEvts_no_call
          · obtain ⟨heq, -, -⟩ := Ev.call.inj h
            obtain rfl := Option.some.inj heq
            omega
          · obtain ⟨heq, -, -⟩ := Ev.call.inj h
            simp at heq
      | succ K2 =>
        rw [loopRun_err_cont hf] at h ⊢
        simp only [List.mem_append, List.mem_cons, List.mem_singleton,
          List.not_mem_nil, or_false] at h
        rcases h with (h | h | h) | h
        · exact absurd h selEvts_no_call
        · obtain ⟨heq, -, -⟩ := Ev.call.inj h
          obtain rfl := Option.some.inj heq
          simp [List.mem_append]
        · exact absurd h (by simp)
        · have hrec := ih h (by omega)
          simp only [List.mem_append, List.mem_cons]
          tauto
    · rw [loopRun_ok hf] at h
      simp only [List.mem_append, List.mem_cons, List.mem_singleton,
        List.not_mem_nil, or_false] at h
      rcases h with h | h
      · exact absurd h selEvts_no_call
      · obtain ⟨-, -, hb⟩ := Ev.call.inj h
        simp at hb

/-- An in-loop invocation that succeeds makes the whole run return that
success: per-attempt results are returned immediately (line 172). -/
theorem run_success_res {env : Env} {sid : Nat → String}
    {f : Nat → Option String → Except String String} :
    ∀ {K a c i : Nat} {r : Option String},
      Ev.call (some i) r true ∈ (loopRun env sid f K a c).2 →
      ∃ v, (loopRun env sid f K a c).1 = some (Except.ok v) := by
  intro K
  induction K with
  | zero =>
    intro a c i r h
    rw [loopRun_zero] at h
    simp at h
  | succ K ih =>
    intro a c i r h
    rcases hf : f c (routeFor env sid a) with d | rr
    · cases K with
      | zero =>
        rw [loopRun_err_one hf] at h ⊢
        rcases hfb : f (c + 1) none with d2 | r2
        · rw [fallbackStep_err hfb] at h
          simp only [List.mem_append, List.mem_cons, List.mem_singleton,
            List.not_mem_nil, or_false] at h
          rcases h with h | h | h
          · exact absurd h selEvts_no_call
          · obtain ⟨-, -, hb⟩ := Ev.call.inj h
            simp at hb
          · obtain ⟨heq, -, -⟩ := Ev.call.inj h
            simp at heq
        · rw [fallbackStep_ok hfb]
          exact ⟨r2, rfl⟩
      | succ K2 =>
        rw [loopRun_err_cont hf] at h ⊢
        simp only [List.mem_append, List.mem_cons, List.mem_singleton,
          List.not_mem_nil, or_false] at h
        rcases h with (h | h | h) | h
        · exact absurd h selEvts_no_call
        · obtain ⟨-, -, hb⟩ := Ev.call.inj h
          simp at hb
        · exact absurd h (by simp)
        · exact ih h
    · rw [loopRun_ok hf]
      exact ⟨rr, rfl⟩

/-- A run of K remaining attempts makes at most K plus one fetch
invocations. -/
theorem run_count_le {env : Env} {sid : Nat → String}
    {f : Nat → Option String → Except String String} :
    ∀ {K a c : Nat}, (callsOf (loopRun env sid f K a c).2).length ≤ K + 1 := by
  intro K
  induction K with
  | zero =>
    intro a c
    rw [loopRun_zero]
    simp
  | succ K ih =>
    intro a c
    rcases hf : f c (routeFor env sid a) with d | rr
    · cases K with
      | zero =>
        rw [loopRun_err_one hf]
        rcases hfb : f (c + 1) none with d2 | r2
        · rw [fallbackStep_err hfb]
          simp
        · rw [fallbackStep_ok hfb]
          simp
      | succ K2 =>
        rw [loopRun_err_cont hf]
        simp only [callsOf_append, callsOf_selEvts, callsOf_cons_call,
          callsOf_cons_wait, callsOf_nil, List.nil_append, List.length_cons,
          List.length_append]
        have := ih (a := a + 1) (c := c + 1)
        simp only [List.length_nil]
        omega
    · rw [loopRun_ok hf]
      simp

/-- A run fails only through the aggregated error of line 183: the direct
fallback invocation, whose index is the invocation counter plus the remaining
fuel, returned an error, the aggregate wraps exactly that error text, and the
run then made the full fuel plus one invocations. -/
theorem run_error_res {env : Env} {sid : Nat → String}
    {f : Nat → Option String → Except String String} :
    ∀ {K a c : Nat} {e : String},
      (loopRun env sid f K a c).1 = some (Except.error e) →
      ∃ d, f (c + K) none = Except.error d ∧
        e = "All download attempts failed: " ++ d ∧
        (callsOf (loopRun env sid f K a c).2).length = K + 1 := by
  intro K
  induction K with
  | zero =>
    intro a c e h
    rw [loopRun_zero] at h
    simp at h
  | succ K ih =>
    intro a c e h
    rcases hf : f c (routeFor env sid a) with d | rr
    · cases K with
      | zero =>
        rw [loopRun_err_one hf] at h ⊢
        rcases hfb : f (c + 1) none with d2 | r2
        · rw [fallbackStep_err hfb] at h
          simp only [Option.some.injEq, Except.error.injEq] at h
          refine ⟨d2, by simp only [Nat.zero_add], h.symm, ?_⟩
          rw [fallbackStep_err hfb]
          simp
        · rw [fallbackStep_ok hfb] at h
          simp at h
      | succ K2 =>
        rw [loopRun_err_cont hf] at h ⊢
        obtain ⟨d2, hd2, he, hlen⟩ := ih h
        have harith : c + 1 + (K2 + 1) = c + (K2 + 1 + 1) := by omega
        rw [harith] at hd2
        refine ⟨d2, hd2, he, ?_⟩
        simp only [callsOf_append, callsOf_selEvts, callsOf_cons_call,
          callsOf_cons_wait, callsOf_nil, List.nil_append, List.length_cons,
          List.length_append, List.length_nil]
        omega
    · rw [loopRun_ok hf] at h
      simp at h

/-- If the run makes an invocation beyond its fuel (index equal to the fuel,
zero-based), the whole trace ends with the failed last-attempt invocation
immediately followed by the direct fallback invocation: no backoff wait and
no other event stands between them. -/
theorem run_trace_tail {env : Env} {sid : Nat → String}
    {f : Nat → Option String → Except String String} :
    ∀ {K a c : Nat},
      ((callsOf (loopRun env sid f (K + 1) a c).2)[K + 1]?).isSome →
      ∃ pre r b, (loopRun env sid f (K + 1) a c).2 =
        pre ++ [Ev.call (some (a + K)) r false, Ev.call none none b] := by
  intro K
  induction K with
  | zero =>
    intro a c h
    rcases hf : f c (routeFor env sid a) with d | rr
    · rw [loopRun_err_one hf] at h ⊢
      rcases hfb : f (c + 1) none with d2 | r2
      · rw [fallbackStep_err hfb] at h ⊢
        exact ⟨selEvts env a, routeFor env sid a, false, by simp⟩
      · rw [fallbackStep_ok hfb] at h ⊢
        exact ⟨selEvts env a, routeFor env sid a, true, by simp⟩
    · rw [loopRun_ok hf] at h
      simp at h
  | succ K2 ih =>
    intro a c h
    rcases hf : f c (routeFor env sid a) with d | rr
    · rw [loopRun_err_cont hf] at h ⊢
      simp only [callsOf_append, callsOf_selEvts, callsOf_cons_call,
        callsOf_cons_wait, callsOf_nil, List.nil_append, List.cons_append,
        List.getElem?_cons_succ] at h
      obtain ⟨pre, r, b, hpre⟩ := ih h
      refine ⟨selEvts env a
        ++ [Ev.call (some a) (routeFor env sid a) false,
            Ev.wait a (min (1000 * 2 ^ a) 10000)] ++ pre, r, b, ?_⟩
      rw [hpre]
      have : a + 1 + K2 = a + (K2 + 1) := by omega
      rw [this]
      simp
    · rw [loopRun_ok hf] at h
      simp at h

/-- The invocation at index equal to the fuel, when it happens, is the direct
fallback: untagged, with no route; and the invocation just before it is the
failed invocation of the last attempt. -/
theorem run_last_call {env : Env} {sid : Nat → String}
    {f : Nat → Option String → Except String String} :
    ∀ {K a c : Nat} {x : Option Nat × Option String × Bool},
      (callsOf (loopRun env sid f (K + 1) a c).2)[K + 1]? = some x →
      x.1 = none ∧ x.2.1 = none ∧
        ∃ r, (callsOf (loopRun env sid f (K + 1) a c).2)[K]? =
          some (some (a + K), r, false) := by
  intro K
  induction K with
  | zero =>
    intro a c x h
    rcases hf : f c (routeFor env sid a) with d | rr
    · rw [loopRun_err_one hf] at h ⊢
      rcases hfb : f (c + 1) none with d2 | r2
      · rw [fallbackStep_err hfb] at h ⊢
        simp only [callsOf_append, callsOf_selEvts, callsOf_cons_call,
          callsOf_nil, List.nil_append, List.getElem?_cons_succ,
          List.getElem?_cons_zero, Option.some.injEq] at h
        subst h
        exact ⟨rfl, rfl, routeFor env sid a, by simp⟩
      · rw [fallbackStep_ok hfb] at h ⊢
        simp only [callsOf_append, callsOf_selEvts, callsOf_cons_call,
          callsOf_nil, List.nil_append, List.getElem?_cons_succ,
          List.getElem?_cons_zero, Option.some.injEq] at h
        subst h
        exact ⟨rfl, rfl, routeFor env sid a, by simp⟩
    · rw [loopRun_ok hf] at h
      simp at h
  | succ K2 ih =>
    intro a c x h
    rcases hf : f c (routeFor env sid a) with d | rr
    · rw [loopRun_err_cont hf] at h ⊢
      simp only [callsOf_append, callsOf_selEvts, callsOf_cons_call,
        callsOf_cons_wait, callsOf_nil, List.nil_append, List.cons_append,
        List.getElem?_cons_succ] at h ⊢
      obtain ⟨h1, h2, r, h3⟩ := ih h
      refine ⟨h1, h2, r, ?_⟩
      have : a + (K2 + 1) = a + 1 + K2 := by omega
      rw [this]
      exact h3
    · rw [loopRun_ok hf] at h
      simp at h

/-- If the invocation of the last attempt (index one below the fuel, tagged
with the last attempt index) fails, the fallback invocation at the next index
happens. -/
theorem run_fallback_of_fail {env : Env} {sid : Nat → String}
    {f : Nat → Option String → Except String String} :
    ∀ {K a c : Nat} {r : Option String},
      (callsOf (loopRun env sid f (K + 1) a c).2)[K]? =
        some (some (a + K), r, false) →
      ((callsOf (loopRun env sid f (K + 1) a c).2)[K + 1]?).isSome := by
  intro K
  induction K with
  | zero =>
    intro a c r h
    rcases hf : f c (routeFor env sid a) with d | rr
    · rw [loopRun_err_one hf] at h ⊢
      rcases hfb : f (c + 1) none with d2 | r2
      · rw [fallbackStep_err hfb]
        simp
      · rw [fallbackStep_ok hfb]
        simp
    · rw [loopRun_ok hf] at h
      simp at h
  | succ K2 ih =>
    intro a c r h
    rcases hf : f c (routeFor env sid a) with d | rr
    · rw [loopRun_err_cont hf] at h ⊢
      simp only [callsOf_append, callsOf_selEvts, callsOf_cons_call,
        callsOf_cons_wait, callsOf_nil, List.nil_append, List.cons_append,
        List.getElem?_cons_succ] at h ⊢
      have harith : a + 1 + K2 = a + (K2 + 1) := by omega
      rw [← harith] at h
      exact ih h
    · rw [loopRun_ok hf] at h
      simp at h

theorem freeProxy_route_none {env : Env} {i : Nat} (s : String)
    (h : selectedName env i = some ("freeProxy")) :
    getProxyWithFallback env s i = none := by
  unfold selectedName at h
  rcases hg : (getActiveProviders env)[i % (getActiveProviders env).length]?
    with _ | p
  · rw [hg] at h
    simp at h
  · rw [hg] at h
    obtain ⟨name, cfg⟩ := p
    simp only [Option.map_some', Option.some.injEq] at h
    subst h
    simp [getProxyWithFallback, hg]

/-- Claim C1: in every orchestrated call, the enabled provider list is sorted
ascending by priority, and whenever an attempt selects a provider, that
provider is the entry of the sorted enabled list at position equal to the
attempt index modulo the list length (round-robin selection of line 101). -/
theorem c1_round_robin_selection (env : Env) (sid : Nat → String)
    (f : Nat → Option String → Except String String) (ma : Int) :
    (getActiveProviders env).Pairwise
      (fun p q => p.2.priority ≤ q.2.priority) ∧
    ∀ n i, Ev.sel n i ∈ (downloadWithRetry env sid f ma).2 →
      ((getActiveProviders env).map
        Prod.fst)[i % (getActiveProviders env).length]? = some n := by
  refine ⟨active_sorted env, ?_⟩
  intro n i h
  unfold downloadWithRetry at h
  rcases run_mem_cases h with ⟨n2, j, heq, hsel⟩ | ⟨j, r2, b2, heq, -⟩
    | ⟨b2, heq⟩ | ⟨j, heq⟩
  · obtain ⟨h1, h2⟩ := Ev.sel.inj heq
    subst h1
    subst h2
    rw [List.getElem?_map]
    unfold selectedName at hsel
    rw [hsel]
  · simp at heq
  · simp at heq
  · simp at heq

theorem c1_round_robin_selection_witness :
    ((getActiveProviders envEmpty).map
      Prod.fst)[0 % (getActiveProviders envEmpty).length]? =
      some ("freeProxy") :=
  (c1_round_robin_selection envEmpty sid0 fFail 1).2 ("freeProxy") 0
    (by decide)

/-- Claim C9: the enabled provider list is never empty, because freeProxy is
unconditionally enabled with priority 99; and when round-robin selection
lands on freeProxy, route construction yields none (getFreeProxy returns
null), so the attempt's fetch invocation carries no route, that is, it is a
direct fetch. -/
theorem c9_free_proxy_always (env : Env) :
    (getActiveProviders env ≠ [] ∧
      (("freeProxy"), freeProxyCfg) ∈ getActiveProviders env) ∧
    (∀ s i, selectedName env i = some ("freeProxy") →
      getProxyWithFallback env s i = none) ∧
    (∀ (sid : Nat → String) (f : Nat → Option String → Except String String)
      (ma : Int) i r b,
      Ev.call (some i) r b ∈ (downloadWithRetry env sid f ma).2 →
      selectedName env i = some ("freeProxy") → r = none) := by
  refine ⟨⟨active_ne_nil env, freeProxy_mem_active env⟩,
    fun s i h => freeProxy_route_none s h, ?_⟩
  intro sid f ma i r b h hsel
  unfold downloadWithRetry at h
  rcases run_mem_cases h with ⟨n2, j, heq, -⟩ | ⟨j, r2, b2, heq, hroute⟩
    | ⟨b2, heq⟩ | ⟨j, heq⟩
  · simp at heq
  · obtain ⟨h1, h2, -⟩ := Ev.call.inj heq
    obtain rfl := Option.some.inj h1
    subst h2
    rw [hroute]
    unfold routeFor
    rw [freeProxy_route_none (sid i) hsel]
    rfl
  · obtain ⟨h1, -, -⟩ := Ev.call.inj heq
    simp at h1
  · simp at heq

theorem c9_free_proxy_always_witness :
    selectedName envEmpty 0 = some ("freeProxy") ∧
      getProxyWithFallback envEmpty ("sess") 0 = none :=
  ⟨by decide, (c9_free_proxy_always envEmpty).2.1 ("sess") 0 (by decide)⟩

/-- Claim C10: called with a non-positive maxAttempts, downloadWithRetry
returns undefined (modelled none) with no result and no error, and the
injected fetch operation is never invoked (the trace is empty). -/
theorem c10_nonpositive_returns_undefined (env : Env) (sid : Nat → String)
    (f : Nat → Option String → Except String String) (ma : Int)
    (h : ma ≤ 0) : downloadWithRetry env sid f ma = (none, []) := by
  unfold downloadWithRetry
  rw [Int.toNat_of_nonpos h]
  exact loopRun_zero

theorem c10_nonpositive_returns_undefined_witness :
    ((-3 : Int) ≤ 0) ∧ downloadWithRetry envEmpty sid0 fOk (-3) = (none, []) :=
  ⟨by decide, c10_nonpositive_returns_undefined envEmpty sid0 fOk (-3)
    (by decide)⟩

/-- Claim C2: with maxAttempts at least one, a run makes at most
maxAttempts plus one fetch invocations; the invocation with zero-based index
maxAttempts exists exactly when the invocation of attempt maxAttempts minus
one was performed and failed; that extra invocation is untagged and carries
no route (the direct fallback); and when it happens the trace ends with the
failed last-attempt invocation immediately followed by it, so no backoff
wait precedes it. -/
theorem c2_invocation_count_and_fallback (env : Env) (sid : Nat → String)
    (f : Nat → Option String → Except String String) (ma : Int)
    (hma : 1 ≤ ma) :
    (callsOf (downloadWithRetry env sid f ma).2).length ≤ ma.toNat + 1 ∧
    (((callsOf (downloadWithRetry env sid f ma).2)[ma.toNat]?).isSome ↔
      ∃ r, (callsOf (downloadWithRetry env sid f ma).2)[ma.toNat - 1]? =
        some (some (ma.toNat - 1), r, false)) ∧
    (∀ x, (callsOf (downloadWithRetry env sid f ma).2)[ma.toNat]? = some x →
      x.1 = none ∧ x.2.1 = none) ∧
    (((callsOf (downloadWithRetry env sid f ma).2)[ma.toNat]?).isSome →
      ∃ pre r b, (downloadWithRetry env sid f ma).2 =
        pre ++ [Ev.call (some (ma.toNat - 1)) r false,
          Ev.call none none b]) := by
  obtain ⟨K, hK⟩ : ∃ K, ma.toNat = K + 1 := ⟨ma.toNat - 1, by omega⟩
  unfold downloadWithRetry
  rw [hK]
  simp only [Nat.add_sub_cancel]
  refine ⟨run_count_le, ⟨?_, ?_⟩, ?_, ?_⟩
  · intro hs
    obtain ⟨x, hx⟩ := Option.isSome_iff_exists.mp hs
    obtain ⟨-, -, r, h3⟩ := run_last_call hx
    exact ⟨r, by simpa using h3⟩
  · rintro ⟨r, hr⟩
    exact run_fallback_of_fail (r := r) (by simpa using hr)
  · intro x hx
    obtain ⟨h1, h2, -⟩ := run_last_call hx
    exact ⟨h1, h2⟩
  · intro hs
    obtain ⟨pre, r, b, hpre⟩ := run_trace_tail hs
    exact ⟨pre, r, b, by simpa using hpre⟩

theorem c2_invocation_count_and_fallback_witness :
    ((1 : Int) ≤ 1) ∧
      (callsOf (downloadWithRetry envEmpty sid0 fFail 1).2).length ≤
        (1 : Int).toNat + 1 :=
  ⟨by decide,
    (c2_invocation_count_and_fallback envEmpty sid0 fFail 1 (by decide)).1⟩

/-- Claim C3: every backoff wait of a run waits exactly the minimum of
one thousand milliseconds doubled per attempt index and ten thousand
milliseconds; and after every failed in-loop invocation whose attempt is not
the last, the corresponding backoff wait is present in the trace. -/
theorem c3_exponential_backoff (env : Env) (sid : Nat → String)
    (f : Nat → Option String → Except String String) (ma : Int) :
    (∀ i w, Ev.wait i w ∈ (downloadWithRetry env sid f ma).2 →
      w = min (1000 * 2 ^ i) 10000) ∧
    (∀ i r, Ev.call (some i) r false ∈ (downloadWithRetry env sid f ma).2 →
      i + 1 < ma.toNat →
      Ev.wait i (min (1000 * 2 ^ i) 10000) ∈
        (downloadWithRetry env sid f ma).2) := by
  constructor
  · intro i w h
    unfold downloadWithRetry at h
    rcases run_mem_cases h with ⟨n, j, heq, -⟩ | ⟨j, r2, b2, heq, -⟩
      | ⟨b2, heq⟩ | ⟨j, heq⟩
    · simp at heq
    · simp at heq
    · simp at heq
    · obtain ⟨h1, h2⟩ := Ev.wait.inj heq
      subst h1
      exact h2
  · intro i r h hlt
    unfold downloadWithRetry at h ⊢
    exact run_wait_of_fail h (by simpa using hlt)

theorem c3_exponential_backoff_witness :
    Ev.wait 0 (min (1000 * 2 ^ 0) 10000) ∈
      (downloadWithRetry envEmpty sid0 fFail 2).2 :=
  (c3_exponential_backoff envEmpty sid0 fFail 2).2 0 none (by decide)
    (by decide)

/-- Claim C7: whenever a run fails, the error it surfaces is the aggregate of
line 183 wrapping exactly the error text of the direct-fallback invocation
(the invocation with index maxAttempts), which therefore also failed; the run
then made all maxAttempts plus one invocations.  In particular no raw
per-attempt error ever crosses the call boundary. -/
theorem c7_error_wraps_direct_fallback (env : Env) (sid : Nat → String)
    (f : Nat → Option String → Except String String) (ma : Int) (e : String)
    (h : (downloadWithRetry env sid f ma).1 = some (Except.error e)) :
    ∃ d, f ma.toNat none = Except.error d ∧
      e = "All download attempts failed: " ++ d ∧
      (callsOf (downloadWithRetry env sid f ma).2).length = ma.toNat + 1 := by
  unfold downloadWithRetry at h ⊢
  have hres := run_error_res h
  simpa using hres

theorem c7_error_wraps_direct_fallback_witness :
    ∃ d, fFail ((1 : Int).toNat) none = Except.error d ∧
      "All download attempts failed: boom" =
        "All download attempts failed: " ++ d ∧
      (callsOf (downloadWithRetry envEmpty sid0 fFail 1).2).length =
        (1 : Int).toNat + 1 :=
  c7_error_wraps_direct_fallback envEmpty sid0 fFail 1
    ("All download attempts failed: boom") (by rfl)

/-- Counterexample to claim C4: with only the brightdata username configured,
attempt zero selects brightdata, route construction yields none (password,
host and port missing), yet the attempt is not an immediate no-fetch failure:
a fetch is performed with no route, and when it succeeds its result is
returned. -/
theorem c4_counterexample :
    selectedName envBD 0 = some ("brightdata") ∧
    getProxyWithFallback envBD (sid0 0) 0 = none ∧
    Ev.call (some 0) none true ∈ (downloadWithRetry envBD sid0 fOk 3).2 ∧
    (downloadWithRetry envBD sid0 fOk 3).1 = some (Except.ok ("payload")) :=
  ⟨by decide, by decide, by decide, rfl⟩

/-- Claim C4 as amended: an attempt whose route construction yields no route
is performed as a direct (no-route) fetch, not skipped: every in-loop
invocation carries exactly the route getProxyWithFallback builds (none when
construction fails); if such an invocation succeeds the run returns that
success; and if it fails on a non-last attempt it consumes the retry slot
and the backoff wait for its attempt follows. -/
theorem c4_amended_direct_fetch (env : Env) (sid : Nat → String)
    (f : Nat → Option String → Except String String) (ma : Int) :
    (∀ i r b, Ev.call (some i) r b ∈ (downloadWithRetry env sid f ma).2 →
      r = (getProxyWithFallback env (sid i) i).map ProxyConfig.url) ∧
    (∀ i r b, Ev.call (some i) r b ∈ (downloadWithRetry env sid f ma).2 →
      b = true →
      ∃ v, (downloadWithRetry env sid f ma).1 = some (Except.ok v)) ∧
    (∀ i r, Ev.call (some i) r false ∈ (downloadWithRetry env sid f ma).2 →
      i + 1 < ma.toNat →
      Ev.wait i (min (1000 * 2 ^ i) 10000) ∈
        (downloadWithRetry env sid f ma).2) := by
  refine ⟨?_, ?_, ?_⟩
  · intro i r b h
    unfold downloadWithRetry at h
    rcases run_mem_cases h with ⟨n2, j, heq, -⟩ | ⟨j, r2, b2, heq, hroute⟩
      | ⟨b2, heq⟩ | ⟨j, heq⟩
    · simp at heq
    · obtain ⟨h1, h2, -⟩ := Ev.call.inj heq
      obtain rfl := Option.some.inj h1
      subst h2
      exact hroute
    · obtain ⟨h1, -, -⟩ := Ev.call.inj heq
      simp at h1
    · simp at heq
  · intro i r b h hb
    subst hb
    unfold downloadWithRetry at h ⊢
    exact run_success_res h
  · intro i r h hlt
    unfold downloadWithRetry at h ⊢
    exact run_wait_of_fail h (by simpa using hlt)

theorem c4_amended_direct_fetch_witness :
    (none : Option String) =
      (getProxyWithFallback envBD (sid0 0) 0).map ProxyConfig.url :=
  (c4_amended_direct_fetch envBD sid0 fOk 3).1 0 none true (by decide)

/-- Counterexample to claim C5: a configuration change between module load
and a later call does not change the result of the list-enabled operation.
With nothing configured at load and the smartproxy username configured at
call time, the code still returns only freeProxy, while recomputing from the
configuration current at the call would also return smartproxy. -/
theorem c5_counterexample :
    getActiveProvidersAt envEmpty envSmart ≠ listEnabledRecomputed envSmart :=
  by decide

/-- Claim C5 as amended: the enabled flag of each provider is computed once,
from the configuration current at module load; the list-enabled operation
returns the same list no matter what the configuration is at call time, and
that list is exactly the enabled list of the load-time snapshot. -/
theorem c5_amended_startup_snapshot (loadEnv c1 c2 : Env) :
    getActiveProvidersAt loadEnv c1 = getActiveProvidersAt loadEnv c2 ∧
    getActiveProvidersAt loadEnv c1 = getActiveProviders loadEnv :=
  ⟨rfl, rfl⟩

/-- Counterexample to claim C6: with only the brightdata username configured,
the brightdata provider is enabled even though its route builder needs a
password, a host and a port that are all absent, and route construction
indeed fails.  Enabledness is therefore not equivalent to the presence of all
parameters the route builder needs. -/
theorem c6_counterexample :
    enabledOf envBD ("brightdata") = some true ∧
    allParamsPresent envBD ("brightdata") = false ∧
    buildUrl envBD ("brightdata") ("sess") = none := by
  refine ⟨by decide, by decide, by decide⟩

/-- Claim C6 as amended: a provider is enabled exactly when its username
parameter is truthy (brightdata through the PROXY-or-BRIGHTDATA fallback,
smartproxy and oxylabs through their own username, freeProxy
unconditionally); missing parameters never raise an error, they only leave
the provider disabled, or let route construction return none or embed
placeholder text later. -/
theorem c6_amended_username_only (env : Env) (name : String)
    (cfg : ProviderCfg) (h : (name, cfg) ∈ PROXY_PROVIDERS env) :
    cfg.enabled = usernameConfigured env name := by
  simp only [PROXY_PROVIDERS, List.mem_cons, List.not_mem_nil,
    or_false] at h
  rcases h with h | h | h | h <;>
    · injection h with h1 h2
      subst h1
      subst h2
      rfl

theorem c6_amended_username_only_witness :
    freeProxyCfg.enabled = usernameConfigured envEmpty ("freeProxy") :=
  c6_amended_username_only envEmpty ("freeProxy") freeProxyCfg (by decide)

theorem frac36_digits_lt :
    ∀ (fuel n d : Nat), 0 < d → n < d → ∀ x ∈ frac36 fuel n d, x < 36 := by
  intro fuel
  induction fuel with
  | zero =>
    intro n d hd hn x hx
    simp [frac36] at hx
  | succ fuel ih =>
    intro n d hd hn x hx
    unfold frac36 at hx
    by_cases hz : n = 0
    · rw [if_pos hz] at hx
      simp at hx
    · rw [if_neg hz] at hx
      rcases List.mem_cons.mp hx with rfl | hx2
      · have hmul : n * 36 < d * 36 :=
          Nat.mul_lt_mul_of_pos_right hn (by norm_num)
        exact Nat.div_lt_of_lt_mul hmul
      · exact ih ((n * 36) % d) d hd (Nat.mod_lt _ hd) x hx2

theorem digitChar36_base36 : ∀ d < 36, isBase36Char (digitChar36 d) = true :=
  by decide

/-- Counterexample to claim C8: the entropy outcome one half (numerator two
to the 52nd over denominator two to the 53rd, an attainable Math.random
value) prints in base 36 as zero dot i, three characters, so the substring
from index seven is the empty string: the session token is not non-empty and
carries no randomness at all on this outcome. -/
theorem c8_counterexample :
    generateSessionId (2 ^ 52) = "" ∧ 2 ^ 52 < 2 ^ 53 :=
  ⟨by decide, by decide⟩

/-- Claim C8 as amended: every session token is a possibly-empty string of
base-36 alphanumeric characters (decimal digits and lowercase letters), the
fraction digits of the random number beyond the first five; no non-emptiness
and no thirty-two-bit entropy guarantee holds. -/
theorem c8_amended_alphanumeric (n : Nat) (h : n < 2 ^ 53) :
    ∀ ch ∈ (generateSessionId n).toList, isBase36Char ch = true := by
  intro ch hch
  have hlist : (generateSessionId n).toList = (jsRandomChars n).drop 7 := rfl
  rw [hlist] at hch
  unfold jsRandomChars at hch
  by_cases hz : n = 0
  · rw [if_pos hz] at hch
    simp at hch
  · rw [if_neg hz] at hch
    have hdrop :
        (Char.ofNat 48 :: Char.ofNat 46 ::
          (frac36 54 n (2 ^ 53)).map digitChar36).drop 7 =
        ((frac36 54 n (2 ^ 53)).map digitChar36).drop 5 := rfl
    rw [hdrop] at hch
    have hch2 : ch ∈ (frac36 54 n (2 ^ 53)).map digitChar36 :=
      List.mem_of_mem_drop hch
    obtain ⟨d, hd, rfl⟩ := List.mem_map.mp hch2
    exact digitChar36_base36 d
      (frac36_digits_lt 54 n (2 ^ 53) (by norm_num) h d hd)

theorem c8_amended_alphanumeric_witness :
    (1 < 2 ^ 53) ∧ isBase36Char (Char.ofNat 48) = true :=
  ⟨by decide,
    c8_amended_alphanumeric 1 (by decide) (Char.ofNat 48) (by decide)⟩
